import Mathlib

/-!
Verification development for the game-pricing pipeline's incremental
fetch-and-reconcile engine.

The Python sources are shallowly embedded:

* `DataProcessor.difference` (src/pipeline/process_data.py) over tables
  modelled as association lists `List (K × V)`: `K` is the value of the
  identity-column tuple of a row and `V` the tuple of its non-identity
  column values (two rows agree on every non-identity column exactly when
  their `V` components are equal, the tables being comparable only when
  they share column names).  The pandas `pd.merge(..., how="outer")` on
  the identity columns is embedded as `outerMerge`: keys are sorted, and
  a key present `m` times on the left and `n` times on the right
  contributes `m * n` joined rows (the pandas cross product), left-only
  keys contribute their left rows, right-only keys their right rows.
* `DataProcessor.save_if_changed` and the `DataProcessor.run` pre-cleanup
  (src/pipeline/process_data.py) over a filesystem modelled as an
  association list from artifacts (the `<stem>.csv` snapshot,
  `<stem>_updated.csv` and `<stem>_removed.csv` files of a table stem)
  to table contents.
* `CacheManager` (src/util/cache_manager.py) over caches modelled as
  association lists from string keys to Python values (`PyVal`), a value
  being either a bare string status code or a structured entry whose
  optional fields model the presence of the dict keys.  Timestamps are
  exact rationals measured in hours.  A method that can raise returns
  `Option`, `none` standing for a raised exception.
* `RateLimitManager` (src/util/rate_limit_manager.py) with times in
  seconds as exact rationals; the Python float literals 0.3 and 3.0 are
  taken at their decimal value.
* the pre-network gate of `SteamDetailFetcher.fetch_detail_data`
  (src/pipeline/fetch_steam_detail.py), the cache test and cache write of
  `BaseFetcher.fetch_batch` / `BaseFetcher._safe_fetch`
  (src/pipeline/base_fetcher.py), and the fixed retry-stage tables of
  the four staged-retry fetchers.
-/

namespace Pipeline

/-! ## Snapshot-diff reconciler: `DataProcessor.difference` -/

section ReconcilerDefs

variable {K : Type} [LinearOrder K] {V : Type} [DecidableEq V]

/-- All values stored in table `t` under identity key `k`, in row order
(the rows `r` of the pandas frame with `r[identityColumns] = k`). -/
def keyVals (t : List (K × V)) (k : K) : List V :=
  (t.filter (fun r => decide (r.1 = k))).map Prod.snd

/-- The sorted union of the identity keys of the two tables: the key set
of `pd.merge(new_df, old_df, on=index_cols, how="outer")`, which sorts
the join keys. -/
def allKeys (new old : List (K × V)) : List K :=
  ((new.map Prod.fst ++ old.map Prod.fst).dedup).insertionSort (· ≤ ·)

/-- The joined rows the outer merge produces for one key `k`:
`(k, some vn, some vo)` stands for a row with `_merge == 'both'`,
`(k, some vn, none)` for `'left_only'`, `(k, none, some vo)` for
`'right_only'`. -/
def mergeCell (new old : List (K × V)) (k : K) :
    List (K × Option V × Option V) :=
  if keyVals new k = [] then
    (keyVals old k).map (fun vo => (k, none, some vo))
  else if keyVals old k = [] then
    (keyVals new k).map (fun vn => (k, some vn, none))
  else
    (keyVals new k).flatMap (fun vn =>
      (keyVals old k).map (fun vo => (k, some vn, some vo)))

/-- `pd.merge(new_df, old_df, on=index_cols, how="outer", indicator=True)`. -/
def outerMerge (new old : List (K × V)) : List (K × Option V × Option V) :=
  (allKeys new old).flatMap (mergeCell new old)

/-- One iteration of the first loop of `DataProcessor.difference`: a
`'both'` row is kept (with new-side values) iff some non-identity column
differs, a `'left_only'` row is always kept, a `'right_only'` row never. -/
def updRow : K × Option V × Option V → Option (K × V)
  | (k, some vn, some vo) => if vn ≠ vo then some (k, vn) else none
  | (k, some vn, none) => some (k, vn)
  | (_, none, _) => none

/-- One iteration of the second loop of `DataProcessor.difference`: the
rows with `_merge == 'right_only'`, restored with old-side values. -/
def remRow : K × Option V × Option V → Option (K × V)
  | (k, none, some vo) => some (k, vo)
  | _ => none

/-- `DataProcessor.difference(new_df, old_df, table_name)`: the pair
`(only_new, only_old)` of added-or-changed and removed rows.
Pre-sorting the inputs by identity columns does not change the merge,
whose output is key-sorted already, so it is not repeated here. -/
def difference (new old : List (K × V)) : List (K × V) × List (K × V) :=
  ((outerMerge new old).filterMap updRow, (outerMerge new old).filterMap remRow)

end ReconcilerDefs

/-! ## Processed-data filesystem: `DataProcessor.save_if_changed` and the
`DataProcessor.run` pre-cleanup -/

/-- A file in the processed-data directory: the full snapshot
`<stem>.csv`, or one of the two delta artifacts `<stem>_updated.csv`
and `<stem>_removed.csv`. -/
inductive Artifact where
  | snapshot (stem : String)
  | updated (stem : String)
  | removed (stem : String)
deriving DecidableEq

/-- Table contents for the filesystem model: identity key and
non-identity payload, both integers. -/
abbrev TableZ := List (ℤ × ℤ)

/-- The processed-data directory: which artifact files exist, with their
contents. -/
abbrev FS := List (Artifact × TableZ)

/-- Reading a file if it exists (`load_previous_if_exists` / `exists()`). -/
def fsGet (fs : FS) (a : Artifact) : Option TableZ :=
  (fs.find? (fun p => decide (p.1 = a))).map Prod.snd

/-- `os.remove` guarded by `exists()`: drop the artifact if present. -/
def fsErase (fs : FS) (a : Artifact) : FS :=
  fs.filter (fun p => decide (p.1 ≠ a))

/-- `save_csv`: (over)write an artifact. -/
def fsWrite (fs : FS) (a : Artifact) (t : TableZ) : FS :=
  (a, t) :: fsErase fs a

/-- `DataProcessor.save_if_changed(df, filename, table_name)` for
`filename = <stem>.csv`: returns the updated filesystem and the boolean
the method returns. -/
def save_if_changed (fs : FS) (df : TableZ) (stem : String) : FS × Bool :=
  match fsGet fs (Artifact.snapshot stem) with
  | some prev =>
    if (difference df prev).1 = [] ∧ (difference df prev).2 = [] then
      (fsErase fs (Artifact.snapshot stem), false)
    else
      (fsErase
        (if (difference df prev).2 = [] then
          (if (difference df prev).1 = [] then fs
           else fsWrite fs (Artifact.updated stem) (difference df prev).1)
         else
           fsWrite
             (if (difference df prev).1 = [] then fs
              else fsWrite fs (Artifact.updated stem) (difference df prev).1)
             (Artifact.removed stem) (difference df prev).2)
        (Artifact.snapshot stem), true)
  | none =>
    (fsErase
      (fsErase (fsWrite fs (Artifact.updated stem) df) (Artifact.removed stem))
      (Artifact.snapshot stem), true)

/-- The pre-cleanup at the top of `DataProcessor.run`: every `*.csv` file
in the processed directory whose name is not one of the kept table
snapshots is deleted (in particular every `*_updated.csv` and
`*_removed.csv` delta). -/
def runCleanup (fs : FS) (keep : List String) : FS :=
  fs.filter (fun p =>
    match p.1 with
    | Artifact.snapshot s => decide (s ∈ keep)
    | Artifact.updated _ => false
    | Artifact.removed _ => false)

/-! ## Status cache: `CacheManager` -/

/-- A structured cache entry (a Python dict restricted to the keys the
pipeline uses); `none` models an absent dict key.  Timestamps are
rationals, in hours. -/
structure CacheEntry where
  status : Option String
  fail_count : Option Nat
  collected_at : Option ℚ
deriving DecidableEq

/-- A cache value: either a bare string status code or a structured
entry. -/
inductive PyVal where
  | str (s : String)
  | obj (e : CacheEntry)
deriving DecidableEq

/-- Python truthiness of a cache value: a string is truthy iff non-empty,
a dict iff it has at least one key. -/
def PyVal.truthy : PyVal → Bool
  | PyVal.str s => decide (s ≠ "")
  | PyVal.obj e => e.status.isSome || e.fail_count.isSome || e.collected_at.isSome

/-- The cache mapping, keyed by stringified IDs. -/
abbrev Cache := List (String × PyVal)

/-- `CacheManager.get(key)`. -/
def cacheGet (c : Cache) (k : String) : Option PyVal :=
  (c.find? (fun p => decide (p.1 = k))).map Prod.snd

/-- `self.cache[str(key)] = value`: unconditional overwrite. -/
def cacheOverwrite (c : Cache) (k : String) (v : PyVal) : Cache :=
  (k, v) :: c.filter (fun p => decide (p.1 ≠ k))

/-- `CacheManager.set(key, value)`: a dict value gets `collected_at`
stamped with the current time if absent (`setdefault`), then the entry is
overwritten. -/
def cacheSet (c : Cache) (k : String) (v : PyVal) (now : ℚ) : Cache :=
  match v with
  | PyVal.obj e =>
    cacheOverwrite c k
      (PyVal.obj { e with collected_at := some (e.collected_at.getD now) })
  | PyVal.str s => cacheOverwrite c k (PyVal.str s)

/-- `CacheManager.record_fail(key)`.  `entry = self.get(key) or {}`
keeps a non-empty bare string as-is, on which `entry.get("fail_count", 0)`
raises `AttributeError` (modelled as `none`); otherwise the entry is
replaced by `{"status": "failed", "fail_count": prev + 1,
"collected_at": now}`. -/
def record_fail (c : Cache) (k : String) (now : ℚ) : Option Cache :=
  match cacheGet c k with
  | some (PyVal.str s) =>
    if s = "" then
      some (cacheOverwrite c k (PyVal.obj ⟨some "failed", some 1, some now⟩))
    else none
  | some (PyVal.obj e) =>
    some (cacheOverwrite c k
      (PyVal.obj ⟨some "failed", some (e.fail_count.getD 0 + 1), some now⟩))
  | none =>
    some (cacheOverwrite c k (PyVal.obj ⟨some "failed", some 1, some now⟩))

/-- `CacheManager.too_many_fails(key, max_attempts)`. -/
def too_many_fails (c : Cache) (k : String) (max_attempts : Nat) : Bool :=
  match cacheGet c k with
  | some (PyVal.obj e) =>
    decide (e.status = some "failed") &&
      decide (max_attempts ≤ e.fail_count.getD 0)
  | _ => false

/-- `CacheManager.is_stale(key, hours)` at current time `now` (hours):
true when there is no entry, the entry is a bare string (no
`collected_at` key, or a `TypeError` caught to `True`), the dict has no
`collected_at`, or the age exceeds the threshold. -/
def is_stale (c : Cache) (k : String) (hours : ℚ) (now : ℚ) : Bool :=
  match cacheGet c k with
  | some (PyVal.obj e) =>
    match e.collected_at with
    | none => true
    | some t => decide (now - t > hours)
  | some (PyVal.str _) => true
  | none => true

/-! ## Base fetch engine: `BaseFetcher` and the detail fetcher's
pre-network gate -/

/-- The cache write of `BaseFetcher._safe_fetch` on success:
`self.cache.set(id_, {"status": "success"})`. -/
def safe_fetch_success (c : Cache) (k : String) (now : ℚ) : Cache :=
  cacheSet c k (PyVal.obj ⟨some "success", none, none⟩) now

/-- The skip test of `BaseFetcher.fetch_batch`:
`self.cache.get(id_) == "success"` — equality against the bare string. -/
def fetch_batch_skips (c : Cache) (k : String) : Bool :=
  decide (cacheGet c k = some (PyVal.str "success"))

/-- What `SteamDetailFetcher.fetch_detail_data` decides before touching
the network: skip (return early) or issue the HTTP request.  `none`
models the `AttributeError` raised by `cached.get("status")` when the
cached value is a non-empty bare string. -/
inductive FetchStep where
  | skip
  | network
deriving DecidableEq

/-- The pre-network gate of `SteamDetailFetcher.fetch_detail_data`
(lines 132-144): fresh cached success → skip; quarantined by
`too_many_fails` → skip; otherwise network. -/
def fetch_detail_gate (c : Cache) (k : String) (now : ℚ) : Option FetchStep :=
  match cacheGet c k with
  | some (PyVal.str s) =>
    if s = "" then
      if too_many_fails c k 3 then some FetchStep.skip else some FetchStep.network
    else none
  | some (PyVal.obj e) =>
    if (PyVal.obj e).truthy && decide (e.status = some "success") &&
        !(is_stale c k 48 now) then
      some FetchStep.skip
    else if too_many_fails c k 3 then some FetchStep.skip
    else some FetchStep.network
  | none =>
    if too_many_fails c k 3 then some FetchStep.skip
    else some FetchStep.network

/-! ## Rate-limit tracker: `RateLimitManager` -/

/-- `RateLimitManager` state; times and durations in seconds, as exact
rationals. -/
structure RateLimitManager where
  window_seconds : ℚ
  threshold : Nat
  initial_backoff : ℚ
  max_backoff : ℚ
  timestamps : List ℚ
deriving DecidableEq

/-- The constructor defaults: `window_seconds=60, threshold=5,
initial_backoff=5, max_backoff=150`, empty window. -/
def RateLimitManager.mkDefault : RateLimitManager := ⟨60, 5, 5, 150, []⟩

/-- `RateLimitManager.record_rate_limit()` at time `now`: append `now`,
prune entries outside the window, return the new state and count. -/
def record_rate_limit (m : RateLimitManager) (now : ℚ) :
    RateLimitManager × Nat :=
  ({ m with
      timestamps :=
        (m.timestamps ++ [now]).filter
          (fun t => decide (now - t < m.window_seconds)) },
    ((m.timestamps ++ [now]).filter
      (fun t => decide (now - t < m.window_seconds))).length)

/-- `RateLimitManager.get_backoff_time()`. -/
def get_backoff_time (m : RateLimitManager) : ℚ :=
  if m.threshold ≤ m.timestamps.length then m.max_backoff
  else
    min (m.initial_backoff * (2 : ℚ) ^ ((m.timestamps.length : ℤ) - 1))
      m.max_backoff

/-- `RateLimitManager.should_slow_down()`: reads the stored list without
pruning it. -/
def should_slow_down (m : RateLimitManager) : Bool :=
  decide (0 < m.timestamps.length)

/-- `RateLimitManager.get_current_delay(base_delay)`: reads the stored
list without pruning it. -/
def get_current_delay (m : RateLimitManager) (base_delay : ℚ) : ℚ :=
  if m.timestamps.length = 0 then base_delay
  else min (base_delay + (m.timestamps.length : ℚ) * (3 / 10)) 3

/-! ## Staged-retry schedules of the four staged-retry fetchers -/

/-- Which in-memory list a retry stage drains. -/
inductive RetryTarget where
  | errored
  | failed
  | merged
deriving DecidableEq

/-- The `retry_stages` table of `SteamDetailFetcher.run`
(src/pipeline/fetch_steam_detail.py lines 325-331). -/
def detailRetryStages : List (RetryTarget × Nat) :=
  [(RetryTarget.errored, 3), (RetryTarget.failed, 3), (RetryTarget.errored, 1),
   (RetryTarget.failed, 1), (RetryTarget.merged, 1)]

/-- The `retry_stages` table of `SteamReviewFetcher.run`
(src/pipeline/fetch_steam_review.py lines 264-270). -/
def reviewRetryStages : List (RetryTarget × Nat) :=
  [(RetryTarget.errored, 3), (RetryTarget.failed, 2), (RetryTarget.errored, 1),
   (RetryTarget.failed, 1), (RetryTarget.merged, 1)]

/-- The `retry_stages` table of the active-player fetcher's `run`
(src/pipeline/fetch_steam_active_player.py lines 259-265). -/
def activePlayerRetryStages : List (RetryTarget × Nat) :=
  [(RetryTarget.errored, 3), (RetryTarget.failed, 2), (RetryTarget.errored, 1),
   (RetryTarget.failed, 1), (RetryTarget.merged, 1)]

/-- The `retry_stages` table of the ITAD-id fetcher's `run`
(src/pipeline/fetch_itad_id.py lines 336-342). -/
def itadIdRetryStages : List (RetryTarget × Nat) :=
  [(RetryTarget.errored, 3), (RetryTarget.failed, 2), (RetryTarget.errored, 1),
   (RetryTarget.failed, 1), (RetryTarget.merged, 1)]

/-- Modelled from the spec: the five retry stages and round budgets the
specification asserts for every fetcher — errored (3 rounds), failed
(2 rounds), errored (1), failed (1), merged (1).  Kept separate from
the tables above, which are translated from the source, so the two can
be compared. -/
def specRetryStages : List (RetryTarget × Nat) :=
  [(RetryTarget.errored, 3), (RetryTarget.failed, 2), (RetryTarget.errored, 1),
   (RetryTarget.failed, 1), (RetryTarget.merged, 1)]

/-! ## Reconciler lemmas -/

section ReconcilerLemmas

variable {K : Type} [LinearOrder K] {V : Type} [DecidableEq V]

lemma mem_keyVals {t : List (K × V)} {k : K} {v : V} :
    v ∈ keyVals t k ↔ (k, v) ∈ t := by
  simp only [keyVals, List.mem_map, List.mem_filter, decide_eq_true_eq]
  constructor
  · rintro ⟨⟨a, b⟩, ⟨hmem, rfl⟩, rfl⟩
    exact hmem
  · intro h
    exact ⟨(k, v), ⟨h, rfl⟩, rfl⟩

lemma keyVals_eq_nil_iff {t : List (K × V)} {k : K} :
    keyVals t k = [] ↔ k ∉ t.map Prod.fst := by
  rw [List.eq_nil_iff_forall_not_mem]
  constructor
  · intro h hk
    rcases List.mem_map.1 hk with ⟨⟨a, b⟩, hmem, rfl⟩
    exact h b (mem_keyVals.2 hmem)
  · intro h v hv
    exact h (List.mem_map.2 ⟨(k, v), mem_keyVals.1 hv, rfl⟩)

lemma mem_allKeys {new old : List (K × V)} {k : K} :
    k ∈ allKeys new old ↔ k ∈ new.map Prod.fst ∨ k ∈ old.map Prod.fst := by
  rw [allKeys, List.mem_insertionSort, List.mem_dedup, List.mem_append]

lemma updRow_eq_some {r : K × Option V × Option V} {k : K} {v : V} :
    updRow r = some (k, v) ↔
      r = (k, some v, none) ∨ ∃ vo, r = (k, some v, some vo) ∧ v ≠ vo := by
  obtain ⟨a, n, o⟩ := r
  cases n with
  | none => cases o <;> simp [updRow]
  | some vn =>
    cases o with
    | none => simp [updRow, Prod.ext_iff]
    | some vo =>
      simp only [updRow]
      split_ifs with h
      · constructor
        · intro heq
          rw [Option.some_inj, Prod.mk.injEq] at heq
          obtain ⟨rfl, rfl⟩ := heq
          exact Or.inr ⟨vo, rfl, h⟩
        · rintro (heq | ⟨w, heq, hvw⟩)
          · rw [Prod.mk.injEq, Prod.mk.injEq] at heq
            exact absurd heq.2.2 (by simp)
          · rw [Prod.mk.injEq, Prod.mk.injEq, Option.some_inj,
              Option.some_inj] at heq
            obtain ⟨rfl, rfl, rfl⟩ := heq
            rfl
      · push_neg at h
        subst h
        constructor
        · intro heq
          exact absurd heq (by simp)
        · rintro (heq | ⟨w, heq, hvw⟩)
          · rw [Prod.mk.injEq, Prod.mk.injEq] at heq
            exact absurd heq.2.2 (by simp)
          · rw [Prod.mk.injEq, Prod.mk.injEq, Option.some_inj,
              Option.some_inj] at heq
            obtain ⟨rfl, h2, h3⟩ := heq
            exact absurd (h2 ▸ h3) hvw

lemma remRow_eq_some {r : K × Option V × Option V} {k : K} {v : V} :
    remRow r = some (k, v) ↔ r = (k, none, some v) := by
  obtain ⟨a, n, o⟩ := r
  cases n with
  | none =>
    cases o with
    | none => simp [remRow]
    | some vo => simp [remRow]
  | some vn => cases o <;> simp [remRow]

lemma mem_diff_updated (new old : List (K × V)) (k : K) (v : V) :
    (k, v) ∈ (difference new old).1 ↔
      (k, v) ∈ new ∧
        (k ∉ old.map Prod.fst ∨ ∃ w, (k, w) ∈ old ∧ w ≠ v) := by
  simp only [difference, List.mem_filterMap, outerMerge, List.mem_flatMap]
  constructor
  · rintro ⟨r, ⟨kc, hkc, hr⟩, hupd⟩
    rcases updRow_eq_some.1 hupd with rfl | ⟨vo, rfl, hne⟩
    · rw [mergeCell] at hr
      split_ifs at hr with h1 h2
      · rcases List.mem_map.1 hr with ⟨w, hwmem, hw⟩
        rw [Prod.mk.injEq, Prod.mk.injEq] at hw
        exact absurd hw.2.1 (by simp)
      · rcases List.mem_map.1 hr with ⟨w, hwmem, hw⟩
        rw [Prod.mk.injEq, Prod.mk.injEq, Option.some_inj] at hw
        obtain ⟨rfl, rfl, -⟩ := hw
        exact ⟨mem_keyVals.1 hwmem, Or.inl (keyVals_eq_nil_iff.1 h2)⟩
      · rcases List.mem_flatMap.1 hr with ⟨vn, hvnmem, hvn⟩
        rcases List.mem_map.1 hvn with ⟨vo2, hvo2mem, hvo2⟩
        rw [Prod.mk.injEq, Prod.mk.injEq] at hvo2
        exact absurd hvo2.2.2 (by simp)
    · rw [mergeCell] at hr
      split_ifs at hr with h1 h2
      · rcases List.mem_map.1 hr with ⟨w, hwmem, hw⟩
        rw [Prod.mk.injEq, Prod.mk.injEq] at hw
        exact absurd hw.2.1 (by simp)
      · rcases List.mem_map.1 hr with ⟨w, hwmem, hw⟩
        rw [Prod.mk.injEq, Prod.mk.injEq] at hw
        exact absurd hw.2.2 (by simp)
      · rcases List.mem_flatMap.1 hr with ⟨vn, hvnmem, hvn⟩
        rcases List.mem_map.1 hvn with ⟨vo2, hvo2mem, hvo2⟩
        rw [Prod.mk.injEq, Prod.mk.injEq, Option.some_inj,
          Option.some_inj] at hvo2
        obtain ⟨rfl, rfl, h3⟩ := hvo2
        refine ⟨mem_keyVals.1 hvnmem,
          Or.inr ⟨vo2, mem_keyVals.1 hvo2mem, ?_⟩⟩
        rw [h3]
        exact hne.symm
  · rintro ⟨hv, hcase⟩
    have hk : k ∈ allKeys new old :=
      mem_allKeys.2 (Or.inl (List.mem_map.2 ⟨(k, v), hv, rfl⟩))
    have hns : v ∈ keyVals new k := mem_keyVals.2 hv
    have hnsne : keyVals new k ≠ [] := List.ne_nil_of_mem hns
    rcases hcase with hnold | ⟨w, hw, hwv⟩
    · have hos : keyVals old k = [] := keyVals_eq_nil_iff.2 hnold
      refine ⟨(k, some v, none), ⟨k, hk, ?_⟩, ?_⟩
      · rw [mergeCell, if_neg hnsne, if_pos hos]
        exact List.mem_map.2 ⟨v, hns, rfl⟩
      · simp [updRow]
    · have hos : w ∈ keyVals old k := mem_keyVals.2 hw
      have hosne : keyVals old k ≠ [] := List.ne_nil_of_mem hos
      refine ⟨(k, some v, some w), ⟨k, hk, ?_⟩, ?_⟩
      · rw [mergeCell, if_neg hnsne, if_neg hosne]
        exact List.mem_flatMap.2 ⟨v, hns, List.mem_map.2 ⟨w, hos, rfl⟩⟩
      · simp [updRow, Ne.symm hwv]

lemma mem_diff_removed (new old : List (K × V)) (k : K) (v : V) :
    (k, v) ∈ (difference new old).2 ↔
      (k, v) ∈ old ∧ k ∉ new.map Prod.fst := by
  simp only [difference, List.mem_filterMap, outerMerge, List.mem_flatMap]
  constructor
  · rintro ⟨r, ⟨kc, hkc, hr⟩, hrem⟩
    obtain rfl := remRow_eq_some.1 hrem
    rw [mergeCell] at hr
    split_ifs at hr with h1 h2
    · rcases List.mem_map.1 hr with ⟨w, hwmem, hw⟩
      rw [Prod.mk.injEq, Prod.mk.injEq, Option.some_inj] at hw
      obtain ⟨rfl, -, rfl⟩ := hw
      exact ⟨mem_keyVals.1 hwmem, keyVals_eq_nil_iff.1 h1⟩
    · rcases List.mem_map.1 hr with ⟨w, hwmem, hw⟩
      rw [Prod.mk.injEq, Prod.mk.injEq] at hw
      exact absurd hw.2.1 (by simp)
    · rcases List.mem_flatMap.1 hr with ⟨vn, hvnmem, hvn⟩
      rcases List.mem_map.1 hvn with ⟨vo, hvomem, hvo⟩
      rw [Prod.mk.injEq, Prod.mk.injEq] at hvo
      exact absurd hvo.2.1 (by simp)
  · rintro ⟨hv, hnnew⟩
    have hk : k ∈ allKeys new old :=
      mem_allKeys.2 (Or.inr (List.mem_map.2 ⟨(k, v), hv, rfl⟩))
    have hns : keyVals new k = [] := keyVals_eq_nil_iff.2 hnnew
    refine ⟨(k, none, some v), ⟨k, hk, ?_⟩, ?_⟩
    · rw [mergeCell, if_pos hns]
      exact List.mem_map.2 ⟨v, mem_keyVals.2 hv, rfl⟩
    · rfl

lemma nodupKeys_eq {t : List (K × V)} (h : (t.map Prod.fst).Nodup)
    {k : K} {v w : V} (hv : (k, v) ∈ t) (hw : (k, w) ∈ t) : v = w := by
  induction t with
  | nil => exact absurd hv (List.not_mem_nil _)
  | cons hd tl ih =>
    simp only [List.map_cons, List.nodup_cons] at h
    rcases List.mem_cons.1 hv with hv1 | hv1 <;>
      rcases List.mem_cons.1 hw with hw1 | hw1
    · rw [← hv1] at hw1
      exact (Prod.mk.injEq .. ▸ hw1).2.symm
    · exfalso
      apply h.1
      rw [← hv1]
      exact List.mem_map.2 ⟨(k, w), hw1, rfl⟩
    · exfalso
      apply h.1
      rw [← hw1]
      exact List.mem_map.2 ⟨(k, v), hv1, rfl⟩
    · exact ih h.2 hv1 hw1

end ReconcilerLemmas

/-! ## Claim theorems -/

/-- C1: `difference` returns exactly the rows of the current table whose
identity exists in the previous table with some non-identity column
differing (emitted with new-side values) or whose identity is absent
from the previous table, as `addedOrChanged`, and the rows of the
previous table whose identity is absent from the current table as
`removed`; on the concrete scenario (previous
`[{id:1,price:10},{id:2,price:20}]`, current
`[{id:1,price:15},{id:3,price:5}]`) it returns
`addedOrChanged = [{id:1,price:15},{id:3,price:5}]` and
`removed = [{id:2,price:20}]`. -/
theorem difference_matches_spec :
    (∀ (K V : Type) [LinearOrder K] [DecidableEq V]
        (new old : List (K × V)) (k : K) (v : V),
      ((k, v) ∈ (difference new old).1 ↔
        (k, v) ∈ new ∧
          (k ∉ old.map Prod.fst ∨ ∃ w, (k, w) ∈ old ∧ w ≠ v)) ∧
      ((k, v) ∈ (difference new old).2 ↔
        (k, v) ∈ old ∧ k ∉ new.map Prod.fst)) ∧
    difference [((1 : ℤ), (15 : ℤ)), (3, 5)] [(1, 10), (2, 20)] =
      ([(1, 15), (3, 5)], [(2, 20)]) := by
  refine ⟨?_, by decide⟩
  intro K V instK instV new old k v
  exact ⟨mem_diff_updated new old k v, mem_diff_removed new old k v⟩

/-- C7: reconciling a non-trivial table against an identical copy of
itself yields an empty added-or-changed set and an empty removed set. -/
theorem difference_self_empty (K V : Type) [LinearOrder K] [DecidableEq V]
    (t : List (K × V)) (hne : t ≠ []) (hnd : (t.map Prod.fst).Nodup) :
    difference t t = ([], []) := by
  rw [Prod.ext_iff]
  constructor
  · rw [List.eq_nil_iff_forall_not_mem]
    rintro ⟨k, v⟩ hkv
    rcases (mem_diff_updated t t k v).1 hkv with ⟨hv, hcase⟩
    rcases hcase with hk | ⟨w, hw, hwv⟩
    · exact hk (List.mem_map.2 ⟨(k, v), hv, rfl⟩)
    · exact hwv (nodupKeys_eq hnd hw hv)
  · rw [List.eq_nil_iff_forall_not_mem]
    rintro ⟨k, v⟩ hkv
    rcases (mem_diff_removed t t k v).1 hkv with ⟨hv, hk⟩
    exact hk (List.mem_map.2 ⟨(k, v), hv, rfl⟩)

/-- Witness for C7: the round trip on a concrete one-row table. -/
theorem difference_self_empty_witness :
    difference [((1 : ℤ), (10 : ℤ))] [((1 : ℤ), (10 : ℤ))] = ([], []) :=
  difference_self_empty ℤ ℤ [((1 : ℤ), (10 : ℤ))] (by decide) (by decide)

/-! ## Filesystem lemmas -/

lemma fsGet_filter_none {fs : FS} {p : Artifact × TableZ → Bool}
    {a : Artifact} (h : fsGet fs a = none) : fsGet (fs.filter p) a = none := by
  rw [fsGet, Option.map_eq_none', List.find?_eq_none] at h ⊢
  intro x hx
  exact h x (List.mem_filter.1 hx).1

lemma fsGet_erase_none {fs : FS} {a b : Artifact} (h : fsGet fs a = none) :
    fsGet (fsErase fs b) a = none := by
  rw [fsErase]
  exact fsGet_filter_none h

lemma fsGet_erase_self (fs : FS) (a : Artifact) :
    fsGet (fsErase fs a) a = none := by
  rw [fsGet, fsErase, Option.map_eq_none', List.find?_eq_none]
  intro x hx hdec
  rw [decide_eq_true_eq] at hdec
  have hne := (List.mem_filter.1 hx).2
  rw [decide_eq_true_eq] at hne
  exact hne hdec

lemma runCleanup_no_updated (fs : FS) (keep : List String) (stem : String) :
    fsGet (runCleanup fs keep) (Artifact.updated stem) = none := by
  rw [fsGet, runCleanup, Option.map_eq_none', List.find?_eq_none]
  intro x hx hdec
  rw [decide_eq_true_eq] at hdec
  have hp := (List.mem_filter.1 hx).2
  rw [hdec] at hp
  simp at hp

lemma runCleanup_no_removed (fs : FS) (keep : List String) (stem : String) :
    fsGet (runCleanup fs keep) (Artifact.removed stem) = none := by
  rw [fsGet, runCleanup, Option.map_eq_none', List.find?_eq_none]
  intro x hx hdec
  rw [decide_eq_true_eq] at hdec
  have hp := (List.mem_filter.1 hx).2
  rw [hdec] at hp
  simp at hp

/-- C2 counterexample: with a stale `game_static_updated.csv` staged and
an unchanged table, `save_if_changed` itself returns `False` and leaves
the stale delta file in place — it does not delete the
`*_updated.csv`/`*_removed.csv` artifacts in the no-change branch. -/
theorem save_if_changed_keeps_stale_delta :
    (save_if_changed
        [(Artifact.updated "game_static", [((5 : ℤ), (5 : ℤ))]),
         (Artifact.snapshot "game_static", [((1 : ℤ), (10 : ℤ))])]
        [((1 : ℤ), (10 : ℤ))] "game_static").2 = false ∧
    fsGet
        (save_if_changed
          [(Artifact.updated "game_static", [((5 : ℤ), (5 : ℤ))]),
           (Artifact.snapshot "game_static", [((1 : ℤ), (10 : ℤ))])]
          [((1 : ℤ), (10 : ℤ))] "game_static").1
        (Artifact.updated "game_static") = some [((5 : ℤ), (5 : ℤ))] := by
  decide

/-- C2 (amended): staged delta files are deleted by the `run()`
pre-cleanup before any reconciliation, not by `save_if_changed`; after
the cleanup, when the previous snapshot exists and the diff is empty,
`save_if_changed` returns `False`, writes no delta files, and removes
the full snapshot file, so no stale delta survives the run. -/
theorem run_cleanup_then_save_noop (fs : FS) (keep : List String)
    (stem : String) (df prev : TableZ) :
    fsGet (runCleanup fs keep) (Artifact.updated stem) = none ∧
    fsGet (runCleanup fs keep) (Artifact.removed stem) = none ∧
    (fsGet (runCleanup fs keep) (Artifact.snapshot stem) = some prev →
      difference df prev = ([], []) →
      (save_if_changed (runCleanup fs keep) df stem).2 = false ∧
      fsGet (save_if_changed (runCleanup fs keep) df stem).1
        (Artifact.updated stem) = none ∧
      fsGet (save_if_changed (runCleanup fs keep) df stem).1
        (Artifact.removed stem) = none ∧
      fsGet (save_if_changed (runCleanup fs keep) df stem).1
        (Artifact.snapshot stem) = none) := by
  refine ⟨runCleanup_no_updated fs keep stem,
    runCleanup_no_removed fs keep stem, ?_⟩
  intro hprev hdiff
  have hresult : save_if_changed (runCleanup fs keep) df stem =
      (fsErase (runCleanup fs keep) (Artifact.snapshot stem), false) := by
    simp [save_if_changed, hprev, hdiff]
  rw [hresult]
  exact ⟨rfl, fsGet_erase_none (runCleanup_no_updated fs keep stem),
    fsGet_erase_none (runCleanup_no_removed fs keep stem),
    fsGet_erase_self _ _⟩

/-- Witness for C2 (amended): a concrete run-cleanup plus no-op save. -/
theorem run_cleanup_then_save_noop_witness :
    (save_if_changed
        (runCleanup
          [(Artifact.updated "t", [((9 : ℤ), (9 : ℤ))]),
           (Artifact.snapshot "t", [((1 : ℤ), (2 : ℤ))])] ["t"])
        [((1 : ℤ), (2 : ℤ))] "t").2 = false ∧
    fsGet
        (save_if_changed
          (runCleanup
            [(Artifact.updated "t", [((9 : ℤ), (9 : ℤ))]),
             (Artifact.snapshot "t", [((1 : ℤ), (2 : ℤ))])] ["t"])
          [((1 : ℤ), (2 : ℤ))] "t").1 (Artifact.updated "t") = none := by
  have h := (run_cleanup_then_save_noop
      [(Artifact.updated "t", [((9 : ℤ), (9 : ℤ))]),
       (Artifact.snapshot "t", [((1 : ℤ), (2 : ℤ))])] ["t"] "t"
      [((1 : ℤ), (2 : ℤ))] [((1 : ℤ), (2 : ℤ))]).2.2 (by decide) (by decide)
  exact ⟨h.1, h.2.1⟩

/-- C3 counterexample: the detail fetcher's stage table does not carry
the claimed budgets — its second (failed) stage runs 3 rounds, where the
claim demands 2 for every fetcher. -/
theorem detail_retry_stages_differ :
    detailRetryStages ≠ specRetryStages ∧
    detailRetryStages[1]? = some (RetryTarget.failed, 3) ∧
    specRetryStages[1]? = some (RetryTarget.failed, 2) := by decide

/-- C3 (amended): the four staged-retry fetchers execute five fixed
retry stages in the order errored, failed, errored, failed, merged; the
review, active-player and ITAD-id fetchers use round budgets 3,2,1,1,1
as the spec states, while the detail fetcher uses 3 rounds (not 2) for
its second, failed stage and agrees with the spec on every other
stage. -/
theorem retry_stage_tables :
    reviewRetryStages = specRetryStages ∧
    activePlayerRetryStages = specRetryStages ∧
    itadIdRetryStages = specRetryStages ∧
    detailRetryStages.length = 5 ∧
    detailRetryStages[0]? = specRetryStages[0]? ∧
    detailRetryStages[1]? = some (RetryTarget.failed, 3) ∧
    detailRetryStages[2]? = specRetryStages[2]? ∧
    detailRetryStages[3]? = specRetryStages[3]? ∧
    detailRetryStages[4]? = specRetryStages[4]? := by decide

/-- C6 (code bug): `BaseFetcher._safe_fetch` records success as the dict
`{"status": "success"}` (time-stamped by `set`), but the skip test of
`BaseFetcher.fetch_batch` compares the entry against the bare string
`"success"`, so an item marked successful by the engine's own wrapper is
dispatched again on every later pass; the test only fires for a bare
string entry, which the engine never writes. -/
theorem base_fetch_success_not_skipped :
    cacheGet (safe_fetch_success [] "10" 0) "10" =
      some (PyVal.obj ⟨some "success", none, some 0⟩) ∧
    fetch_batch_skips (safe_fetch_success [] "10" 0) "10" = false ∧
    fetch_batch_skips [("5", PyVal.str "success")] "5" = true := by decide

/-- C4 counterexample: one recorded signal at time 0; at time 100 every
signal in the stored window is at least `window_seconds` old and none
has been recorded since, yet `should_slow_down` still returns true —
the list is only pruned inside `record_rate_limit`, not before reads. -/
theorem should_slow_down_stale_window :
    ((record_rate_limit RateLimitManager.mkDefault 0).1).timestamps = [0] ∧
    (100 : ℚ) - 0 ≥ RateLimitManager.mkDefault.window_seconds ∧
    should_slow_down ((record_rate_limit RateLimitManager.mkDefault 0).1) =
      true := by
  have hts : ((record_rate_limit RateLimitManager.mkDefault 0).1).timestamps =
      [0] := by
    norm_num [record_rate_limit, RateLimitManager.mkDefault]
  refine ⟨hts, by norm_num [RateLimitManager.mkDefault], ?_⟩
  rw [should_slow_down, hts]
  simp

/-- C4 (amended): timestamps older than the window are pruned on every
`record_rate_limit`, not before reads; `should_slow_down` returns true
iff the list retained by the last prune is non-empty, so after any
recorded signal it stays true regardless of how much time has passed. -/
theorem rate_limit_prune_on_record :
    (∀ (m : RateLimitManager) (now t : ℚ),
      t ∈ ((record_rate_limit m now).1).timestamps →
        now - t < m.window_seconds) ∧
    (∀ m : RateLimitManager, should_slow_down m = true ↔ m.timestamps ≠ []) ∧
    (∀ (m : RateLimitManager) (now : ℚ), 0 < m.window_seconds →
      should_slow_down ((record_rate_limit m now).1) = true) := by
  refine ⟨?_, ?_, ?_⟩
  · intro m now t ht
    simp only [record_rate_limit] at ht
    have hmem := (List.mem_filter.1 ht).2
    rwa [decide_eq_true_eq] at hmem
  · intro m
    simp [should_slow_down, List.length_pos]
  · intro m now h
    have hmem : now ∈ ((record_rate_limit m now).1).timestamps := by
      simp only [record_rate_limit]
      refine List.mem_filter.2
        ⟨List.mem_append.2 (Or.inr (List.mem_singleton.2 rfl)), ?_⟩
      rw [decide_eq_true_eq, sub_self]
      exact h
    simp only [should_slow_down, decide_eq_true_eq, List.length_pos]
    exact List.ne_nil_of_mem hmem

/-- Witness for C4 (amended): the pruning bound and the read, applied at
the default manager with a signal at time 0. -/
theorem rate_limit_prune_on_record_witness :
    (0 : ℚ) - 0 < RateLimitManager.mkDefault.window_seconds ∧
    should_slow_down ((record_rate_limit RateLimitManager.mkDefault 0).1) =
      true :=
  ⟨rate_limit_prune_on_record.1 RateLimitManager.mkDefault 0 0
      (by norm_num [record_rate_limit, RateLimitManager.mkDefault]),
   rate_limit_prune_on_record.2.2 RateLimitManager.mkDefault 0
      (by norm_num [RateLimitManager.mkDefault])⟩

/-- C9 counterexample: with an empty window (count 0) and base delay 5,
`get_current_delay` returns 5, not the claimed
`min(base + count*0.3, 3.0) = 3` — the cap does not apply when the
count is zero. -/
theorem get_current_delay_uncapped :
    get_current_delay RateLimitManager.mkDefault 5 = 5 ∧
    min ((5 : ℚ) +
      ((RateLimitManager.mkDefault.timestamps.length : ℚ)) * (3 / 10)) 3 = 3 ∧
    get_current_delay RateLimitManager.mkDefault 5 ≠
      min ((5 : ℚ) +
        ((RateLimitManager.mkDefault.timestamps.length : ℚ)) * (3 / 10)) 3 := by
  have h1 : get_current_delay RateLimitManager.mkDefault 5 = 5 := by
    norm_num [get_current_delay, RateLimitManager.mkDefault]
  have hlen : ((RateLimitManager.mkDefault.timestamps.length : ℚ)) = 0 := by
    norm_num [RateLimitManager.mkDefault]
  have h2 : min ((5 : ℚ) +
      ((RateLimitManager.mkDefault.timestamps.length : ℚ)) * (3 / 10)) 3 =
      3 := by
    rw [hlen]
    rw [min_eq_right (by norm_num)]
  refine ⟨h1, h2, ?_⟩
  rw [h1, h2]
  norm_num

/-- C9 (amended): when at least one rate-limit signal is stored,
`get_current_delay(base)` returns `min(base + count*0.3, 3.0)`, hence
never exceeds 3.0; when the window is empty it returns the base delay
unchanged, which may exceed 3.0. -/
theorem get_current_delay_formula :
    (∀ (m : RateLimitManager) (b : ℚ), m.timestamps ≠ [] →
      get_current_delay m b =
        min (b + (m.timestamps.length : ℚ) * (3 / 10)) 3 ∧
      get_current_delay m b ≤ 3) ∧
    (∀ (m : RateLimitManager) (b : ℚ), m.timestamps = [] →
      get_current_delay m b = b) := by
  constructor
  · intro m b h
    have hlen : ¬ m.timestamps.length = 0 := by
      simpa [List.length_eq_zero] using h
    rw [get_current_delay, if_neg hlen]
    exact ⟨rfl, min_le_right _ _⟩
  · intro m b h
    rw [get_current_delay, h]
    simp

/-- Witness for C9 (amended): one stored signal, base 1. -/
theorem get_current_delay_formula_witness :
    get_current_delay ⟨60, 5, 5, 150, [0]⟩ 1 =
      min ((1 : ℚ) + ((([(0 : ℚ)].length) : ℚ)) * (3 / 10)) 3 ∧
    get_current_delay ⟨60, 5, 5, 150, [0]⟩ 1 ≤ 3 :=
  get_current_delay_formula.1 ⟨60, 5, 5, 150, [0]⟩ 1 (by decide)

/-- C10: with no signal in the window and a positive threshold,
`get_backoff_time` evaluates `initial_backoff * 2 ** (0 - 1)` and
returns `min(initial_backoff * 2^(-1), max_backoff)` — half the initial
backoff when it is below the cap, a strictly positive duration (2.5
seconds at the constructor defaults), rather than zero or an error. -/
theorem get_backoff_empty_window (w : ℚ) (th : Nat) (ib mb : ℚ)
    (hth : 0 < th) (hib : 0 < ib) (hmb : 0 < mb) :
    get_backoff_time ⟨w, th, ib, mb, []⟩ =
      min (ib * (2 : ℚ) ^ (-1 : ℤ)) mb ∧
    0 < get_backoff_time ⟨w, th, ib, mb, []⟩ ∧
    get_backoff_time RateLimitManager.mkDefault = 5 / 2 := by
  have hcond : ¬ th ≤ ([] : List ℚ).length := by
    simp only [List.length_nil]
    omega
  have heq : get_backoff_time ⟨w, th, ib, mb, []⟩ =
      min (ib * (2 : ℚ) ^ (-1 : ℤ)) mb := by
    rw [get_backoff_time, if_neg hcond]
    norm_num
  refine ⟨heq, ?_, ?_⟩
  · rw [heq]
    have h2 : (0 : ℚ) < (2 : ℚ) ^ (-1 : ℤ) := by positivity
    exact lt_min (mul_pos hib h2) hmb
  · have hcond5 : ¬ (5 : Nat) ≤ ([] : List ℚ).length := by simp
    rw [RateLimitManager.mkDefault, get_backoff_time, if_neg hcond5]
    rw [min_eq_left (by norm_num [zpow_neg, zpow_one])]
    norm_num [zpow_neg, zpow_one]

/-- Witness for C10: the defaults `initial_backoff=5, max_backoff=150,
threshold=5`. -/
theorem get_backoff_empty_window_witness :
    get_backoff_time ⟨60, 5, 5, 150, []⟩ =
      min ((5 : ℚ) * (2 : ℚ) ^ (-1 : ℤ)) 150 ∧
    0 < get_backoff_time ⟨(60 : ℚ), 5, 5, 150, []⟩ :=
  ⟨(get_backoff_empty_window 60 5 5 150 (by norm_num) (by norm_num)
      (by norm_num)).1,
   (get_backoff_empty_window 60 5 5 150 (by norm_num) (by norm_num)
      (by norm_num)).2.1⟩

/-- C5: `too_many_fails(key, 3)` holds exactly when the entry is a
structured record with status `failed` and `fail_count ≥ 3`; the detail
fetcher's pre-network gate skips such a key without reaching the network
call, while a structured failed entry with `fail_count = 2` still goes
to the network. -/
theorem too_many_fails_quarantine :
    (∀ (c : Cache) (k : String) (m : Nat),
      too_many_fails c k m = true ↔
        ∃ e, cacheGet c k = some (PyVal.obj e) ∧
          e.status = some "failed" ∧ m ≤ e.fail_count.getD 0) ∧
    (∀ (c : Cache) (k : String) (now : ℚ),
      too_many_fails c k 3 = true →
        fetch_detail_gate c k now = some FetchStep.skip) ∧
    (∀ (c : Cache) (k : String) (now t : ℚ) (n : Nat),
      cacheGet c k = some (PyVal.obj ⟨some "failed", some n, some t⟩) →
      (3 ≤ n → fetch_detail_gate c k now = some FetchStep.skip) ∧
      (n < 3 → fetch_detail_gate c k now = some FetchStep.network)) := by
  have hchar : ∀ (c : Cache) (k : String) (m : Nat),
      too_many_fails c k m = true ↔
        ∃ e, cacheGet c k = some (PyVal.obj e) ∧
          e.status = some "failed" ∧ m ≤ e.fail_count.getD 0 := by
    intro c k m
    rcases hc : cacheGet c k with - | v
    · simp [too_many_fails, hc]
    · cases v with
      | str s => simp [too_many_fails, hc]
      | obj e => simp [too_many_fails, hc]
  have hskip : ∀ (c : Cache) (k : String) (now : ℚ),
      too_many_fails c k 3 = true →
        fetch_detail_gate c k now = some FetchStep.skip := by
    intro c k now h
    rcases (hchar c k 3).1 h with ⟨e, hce, hst, hfc⟩
    simp [fetch_detail_gate, hce, hst, h]
  refine ⟨hchar, hskip, ?_⟩
  intro c k now t n hce
  constructor
  · intro h3
    refine hskip c k now ((hchar c k 3).2
      ⟨⟨some "failed", some n, some t⟩, hce, rfl, ?_⟩)
    simpa using h3
  · intro hlt
    have htmf : too_many_fails c k 3 = false := by
      cases hb : too_many_fails c k 3
      · rfl
      · rcases (hchar c k 3).1 hb with ⟨e, hce2, hst2, hfc2⟩
        rw [hce] at hce2
        rw [Option.some_inj, PyVal.obj.injEq] at hce2
        rw [← hce2] at hfc2
        simp only [Option.getD_some] at hfc2
        omega
    simp [fetch_detail_gate, hce, htmf]

/-- Witness for C5: a quarantined key (3 failures) is skipped, a key
with 2 failures still reaches the network. -/
theorem too_many_fails_quarantine_witness :
    fetch_detail_gate
        [("1", PyVal.obj ⟨some "failed", some 3, some 0⟩)] "1" 100 =
      some FetchStep.skip ∧
    fetch_detail_gate
        [("2", PyVal.obj ⟨some "failed", some 2, some 0⟩)] "2" 100 =
      some FetchStep.network := by
  constructor
  · exact (too_many_fails_quarantine.2.2
      [("1", PyVal.obj ⟨some "failed", some 3, some 0⟩)] "1" 100 0 3 rfl).1
      (by norm_num)
  · exact (too_many_fails_quarantine.2.2
      [("2", PyVal.obj ⟨some "failed", some 2, some 0⟩)] "2" 100 0 2 rfl).2
      (by norm_num)

/-- C8 counterexample: `record_fail` on a key whose prior entry is the
bare string status code `"http_error_429"` raises (`entry or {}` keeps
the non-empty string, and `entry.get("fail_count", 0)` is an
`AttributeError` on a string) instead of completing. -/
theorem record_fail_raises_on_string :
    record_fail [("7", PyVal.str "http_error_429")] "7" 0 = none := by
  rfl

/-- C8 (amended): `record_fail` completes when the prior entry is absent
or structured, leaving the entry with status `failed`, `fail_count`
equal to the previous count (0 if none) plus one, and a fresh timestamp;
when the prior entry is a non-empty bare string status code it raises
`AttributeError` and changes nothing. -/
theorem record_fail_behavior :
    (∀ (c : Cache) (k : String) (now : ℚ),
      cacheGet c k = none →
        record_fail c k now =
          some (cacheOverwrite c k
            (PyVal.obj ⟨some "failed", some 1, some now⟩))) ∧
    (∀ (c : Cache) (k : String) (now : ℚ) (e : CacheEntry),
      cacheGet c k = some (PyVal.obj e) →
        record_fail c k now =
          some (cacheOverwrite c k
            (PyVal.obj ⟨some "failed", some (e.fail_count.getD 0 + 1),
              some now⟩))) ∧
    (∀ (c : Cache) (k : String) (now : ℚ) (s : String),
      s ≠ "" → cacheGet c k = some (PyVal.str s) →
        record_fail c k now = none) ∧
    (∀ (c : Cache) (k : String) (v : PyVal),
      cacheGet (cacheOverwrite c k v) k = some v) := by
  refine ⟨?_, ?_, ?_, ?_⟩
  · intro c k now h
    simp [record_fail, h]
  · intro c k now e h
    simp [record_fail, h]
  · intro c k now s hs h
    simp [record_fail, h, hs]
  · intro c k v
    simp [cacheGet, cacheOverwrite, List.find?]

/-- Witness for C8 (amended): a structured failed entry with one
recorded failure goes to two, freshly stamped. -/
theorem record_fail_behavior_witness :
    record_fail [("9", PyVal.obj ⟨some "failed", some 1, some 0⟩)] "9" 5 =
      some [("9", PyVal.obj ⟨some "failed", some 2, some 5⟩)] := by
  have h := record_fail_behavior.2.1
      [("9", PyVal.obj ⟨some "failed", some 1, some 0⟩)] "9" 5
      ⟨some "failed", some 1, some 0⟩ rfl
  simpa [cacheOverwrite, List.filter] using h

end Pipeline
